import Mathlib

/-!
Verification development for the go-withings client library.

The definitions below are a shallow embedding of the Go source:
form-parameter maps model net/url Values, pure functions model the
request-building and response-decoding code, and fallible code returns
Except. Machine integers are modelled as Int (no arithmetic in the
embedded code ever overflows a 64-bit int on the inputs considered).
-/

namespace GoWithings

/-! ## url.Values: the form/query parameter multimap of net/url -/

/-- Model of the Go type url.Values, a map from keys to lists of values. -/
def Values : Type := String → List String

/-- An empty url.Values map. -/
def Values.empty : Values := fun _ => []

/-- Values.Get-style read access: the list of values stored under a key
(empty list when the key is absent). -/
def Values.get (vs : Values) (k : String) : List String := vs k

/-- url.Values.Set: replace the values of a key with a single value. -/
def Values.set (vs : Values) (k v : String) : Values :=
  fun q => if q = k then [v] else vs q

/-- url.Values.Add: append a value to the values of a key. -/
def Values.add (vs : Values) (k v : String) : Values :=
  fun q => if q = k then vs q ++ [v] else vs q

/-! ## oauth2 package: config.go

Embedding of the Withings-specific OAuth2 config wrapper. The wrapped
golang.org/x/oauth2 dependency (pinned in go.mod) is embedded too where
the wrapper delegates to it; requests are modelled by the form/query
parameter map they carry. -/

/-- The fields of golang.org/x/oauth2 Config that the embedded functions
read (the endpoint URLs do not affect the parameter maps). -/
structure Config where
  ClientID : String := ""
  ClientSecret : String := ""
  RedirectURL : String := ""
  Scopes : List String := []

/-- An oauth2.AuthCodeOption produced by oauth2.SetAuthURLParam: a
key/value pair set on the query parameters. -/
structure AuthCodeOption where
  key : String
  value : String

/-- setValue of a SetAuthURLParam option: url.Values.Set of its pair. -/
def AuthCodeOption.setValue (o : AuthCodeOption) (vs : Values) : Values :=
  vs.set o.key o.value

/-- ModeDemo = oauth2.SetAuthURLParam("mode", "demo"). -/
def ModeDemo : AuthCodeOption := ⟨"mode", "demo"⟩

/-- Query parameters built by golang.org/x/oauth2 Config.AuthCodeURL
before the options are applied: response_type, client_id, optional
redirect_uri, space-joined scope, optional state. -/
def oauth2AuthCodeURLValuesBase (c : Config) (state : String) : Values :=
  let v := (Values.empty.set "response_type" "code").set "client_id" c.ClientID
  let v := if c.RedirectURL ≠ "" then v.set "redirect_uri" c.RedirectURL else v
  let v := if c.Scopes.length > 0 then v.set "scope" (String.intercalate " " c.Scopes) else v
  if state ≠ "" then v.set "state" state else v

/-- Query parameters built by golang.org/x/oauth2 Config.AuthCodeURL
(the dependency function the wrapper delegates to): the base parameters,
then each option applied in order. -/
def oauth2AuthCodeURLValues (c : Config) (state : String)
    (opts : List AuthCodeOption) : Values :=
  opts.foldl (fun v o => o.setValue v) (oauth2AuthCodeURLValuesBase c state)

/-- Query parameters of the consent URL built by the Withings wrapper
Config.AuthCodeURL: when scopes are configured it prepends a
SetAuthURLParam("scope", strings.Join(c.Scopes, ",")) option and then
delegates to the wrapped AuthCodeURL. -/
def Config.AuthCodeURLValues (c : Config) (state : String)
    (opts : List AuthCodeOption) : Values :=
  let opts :=
    if c.Scopes.length > 0 then
      (⟨"scope", String.intercalate "," c.Scopes⟩ : AuthCodeOption) :: opts
    else opts
  oauth2AuthCodeURLValues c state opts

/-- Form parameters built by the Withings Config.Exchange before it
calls retrieveToken: action, grant_type, code, and redirect_uri when a
redirect URL is configured. -/
def Config.ExchangeValues (c : Config) (code : String) : Values :=
  let v := ((Values.empty.set "action" "requesttoken").set
    "grant_type" "authorization_code").set "code" code
  if c.RedirectURL ≠ "" then v.set "redirect_uri" c.RedirectURL else v

/-! ## withings package: withings.go

Embedding of the generic client: the envelope decoder (Client.Do), the
request builder (Client.NewRequest / Client.PostForm) and the transport
wrapper (Client.BareDo). -/

/-- A JSON value as produced by encoding/json when decoding into a
generic interface value (numbers carried as Int: every number a claim
touches is integral). -/
inductive Json where
  | null
  | bool (b : Bool)
  | num (n : Int)
  | str (s : String)
  | arr (elems : List Json)
  | obj (fields : List (String × Json))

/-- The generic map the response body is decoded into
(map from string keys to generic JSON values). -/
def JsonMap : Type := List (String × Json)

/-- Lookup of a field of the generic map by its JSON field name
(mapstructure TagName "json" matching; the decoded Go map has unique
keys). -/
def lookupField (fields : JsonMap) (key : String) : Option Json :=
  (List.find? (fun p => p.1 == key) fields).map (fun p => p.2)

/-- The inner body part of the apiResponse struct: more and offset, with
Go zero values as defaults. -/
structure ApiBody where
  more : Bool := false
  offset : Int := 0
deriving DecidableEq

/-- The apiResponse struct of withings.go: the fixed
\x7bstatus, body:\x7bmore,offset\x7d\x7d metadata shape. -/
structure ApiResponse where
  status : Int := 0
  body : ApiBody := {}
deriving DecidableEq

/-- mapstructure decoding of an int-typed struct field: absent or null
input leaves the zero-valued default, a number is stored (JSON float64
into an int field is accepted by mapstructure), anything else is a type
mismatch error. -/
def decodeIntField (fields : JsonMap) (key : String) (dflt : Int) :
    Except String Int :=
  match lookupField fields key with
  | none => .ok dflt
  | some .null => .ok dflt
  | some (.num n) => .ok n
  | some _ => .error (key ++ ": expected type int")

/-- mapstructure decoding of a bool-typed struct field: absent or null
input leaves the zero-valued default, a bool is stored, anything else is
a type mismatch error. -/
def decodeBoolField (fields : JsonMap) (key : String) (dflt : Bool) :
    Except String Bool :=
  match lookupField fields key with
  | none => .ok dflt
  | some .null => .ok dflt
  | some (.bool b) => .ok b
  | some _ => .error (key ++ ": expected type bool")

/-- mapstructure decoding of the inner body struct of apiResponse from a
generic map. -/
def decodeApiBody (fields : JsonMap) : Except String ApiBody := do
  let more ← decodeBoolField fields "more" false
  let offset ← decodeIntField fields "offset" 0
  .ok { more := more, offset := offset }

/-- mapstructure decoding of the apiResponse struct from the generic map
the response body was decoded into. -/
def decodeApiResponse (fields : JsonMap) : Except String ApiResponse := do
  let status ← decodeIntField fields "status" 0
  let body ←
    match lookupField fields "body" with
    | none => Except.ok ({} : ApiBody)
    | some .null => Except.ok ({} : ApiBody)
    | some (.obj bodyFields) => decodeApiBody bodyFields
    | some _ => Except.error "body: expected a map"
  .ok { status := status, body := body }

/-- Outcome of json.NewDecoder(resp.Body).Decode(&body) with body a fresh
empty generic map: a well-formed JSON object body yields its fields, an
empty body yields io.EOF (which Do ignores, leaving the map empty), and
malformed JSON (or a body that is not a JSON object) yields a decode
error. -/
inductive BodyParse where
  | parsed (fields : JsonMap)
  | empty
  | malformed (msg : String)

/-- The metadata part of the Response struct: Withings API status and the
pagination cursor (the wrapped http.Response is not modelled). -/
structure Response where
  status : Int := 0
  more : Bool := false
  offset : Int := 0
deriving DecidableEq

/-- The decode phase of Client.Do on the generic map obtained from the
body: decode the fixed apiResponse metadata shape from the map, decode
the caller-supplied target shape from the same map, then populate the
Response metadata fields (no error is raised for a non-zero status). -/
def doDecodePhase {α : Type} (fields : JsonMap)
    (targetDecode : JsonMap → Except String α) :
    Except String (Response × α) := do
  let apiResp ← decodeApiResponse fields
  let target ← targetDecode fields
  .ok ({ status := apiResp.status, more := apiResp.body.more,
         offset := apiResp.body.offset }, target)

/-- Client.Do after a successful BareDo: decode the body into a generic
map (an empty body is kept as the empty map, any other decode failure is
returned), then run the decode phase. The caller-supplied target shape is
abstracted as a decoding function on the generic map (mapstructure with
the json tag name, exactly as the metadata decode). -/
def ClientDo {α : Type} (parse : BodyParse)
    (targetDecode : JsonMap → Except String α) :
    Except String (Response × α) :=
  match parse with
  | .malformed msg => .error msg
  | .empty => doDecodePhase [] targetDecode
  | .parsed fields => doDecodePhase fields targetDecode

/-- Spec-side reading of an integer field: the value exactly as present,
the default when absent, undefined on a shape mismatch. -/
def specIntField (fields : JsonMap) (key : String) (dflt : Int) : Option Int :=
  match lookupField fields key with
  | some (.num n) => some n
  | none => some dflt
  | some _ => none

/-- Spec-side reading of a boolean field: the value exactly as present,
the default when absent, undefined on a shape mismatch. -/
def specBoolField (fields : JsonMap) (key : String) (dflt : Bool) : Option Bool :=
  match lookupField fields key with
  | some (.bool b) => some b
  | none => some dflt
  | some _ => none

/-- Spec-side view of the envelope status: the status field exactly as
present in the body, defaulting to 0 when absent. -/
def specStatus (fields : JsonMap) : Option Int :=
  specIntField fields "status" 0

/-- Spec-side view of the more flag: exactly as present inside the body
object, defaulting to false when the field or the body object is absent. -/
def specMore (fields : JsonMap) : Option Bool :=
  match lookupField fields "body" with
  | none => some false
  | some (.obj bodyFields) => specBoolField bodyFields "more" false
  | some _ => none

/-- Spec-side view of the offset: exactly as present inside the body
object, defaulting to 0 when the field or the body object is absent. -/
def specOffset (fields : JsonMap) : Option Int :=
  match lookupField fields "body" with
  | none => some 0
  | some (.obj bodyFields) => specIntField bodyFields "offset" 0
  | some _ => none

/-- A URL as the claims observe it: scheme, host and path (net/url URL
restricted to the components the embedded code reads). -/
structure URL where
  scheme : String
  host : String
  path : String
deriving DecidableEq

/-- The Go string rendering of such a URL. -/
def URL.render (u : URL) : String := u.scheme ++ "://" ++ u.host ++ u.path

/-- strings.HasPrefix(s, "/"), phrased over the character list so that
concrete instances reduce in the kernel. -/
def startsWithSlash (s : String) : Bool := s.toList.head? == some '/'

/-- strings.HasSuffix(s, "/"), phrased over the character list so that
concrete instances reduce in the kernel. -/
def endsWithSlash (s : String) : Bool := s.toList.getLast? == some '/'

/-- Everything up to and including the last slash of a path (the
directory part used by RFC 3986 relative-reference merging); empty when
the path holds no slash. -/
def dropLastSegment (p : String) : String :=
  String.mk ((p.toList.reverse.dropWhile (fun c => c ≠ '/')).reverse)

/-- net/url ResolveReference for the references the client issues:
a rooted reference replaces the path, otherwise the reference is merged
onto the directory of the base path (an empty base path of a URL with a
host merges as the root). Dot segments do not occur in the resource
paths of this client and are not modelled. -/
def URL.resolveReference (base : URL) (ref : String) : URL :=
  if startsWithSlash ref then { base with path := ref }
  else if base.path = "" then { base with path := "/" ++ ref }
  else { base with path := dropLastSegment base.path ++ ref }

/-- The Client struct fields the embedded request builder reads. -/
structure Client where
  BaseURL : URL
  UserAgent : String := "go-withings"

/-- Client.NewRequest: reject a BaseURL whose path does not end in a
slash before building anything, otherwise resolve the relative URL
against the base (the request itself is represented by its resolved
URL). -/
def Client.NewRequest (c : Client) (urlStr : String) : Except String URL :=
  if ¬ endsWithSlash c.BaseURL.path then
    .error ("BaseURL must have a trailing slash, but \"" ++ c.BaseURL.render
      ++ "\" does not")
  else
    .ok (c.BaseURL.resolveReference urlStr)

/-- Client.PostForm: build the request with NewRequest, returning its
error before anything is sent, then execute it and run Client.Do on the
outcome. The HTTP execution is abstracted as a transport function from
the resolved URL to the parsed body. -/
def Client.PostForm {α : Type} (c : Client) (urlStr : String)
    (transport : URL → BodyParse)
    (targetDecode : JsonMap → Except String α) :
    Except String (Response × α) :=
  match c.NewRequest urlStr with
  | .error e => .error e
  | .ok u => ClientDo (transport u) targetDecode

/-- The cancellation context of a request: whether its Done channel is
closed and the error its Err method reports then. -/
structure Ctx where
  done : Bool
  err : String

/-- Outcome of the underlying HTTP round trip c.client.Do(req). -/
inductive TransportOutcome where
  | success
  | failure (err : String)

/-- Client.BareDo: a nil context is rejected; on a transport failure,
when the Done channel of the request context is already closed the error
of the context is returned instead of the raw transport error, otherwise
the transport error is returned untouched. -/
def BareDo (ctx : Option Ctx) (outcome : TransportOutcome) :
    Except String Unit :=
  match ctx with
  | none => .error "context must be non-nil"
  | some ctx =>
    match outcome with
    | .success => .ok ()
    | .failure e => if ctx.done then .error ctx.err else .error e

/-! ## withings package: measure.go

Embedding of the measure service: the enum value sets with their
validity filters, and the form-parameter construction of the Getmeas,
Getactivity, Getintradayactivity and Getworkouts calls (each call is
represented by the form it would POST, or the error raised before any
request). -/

/-- MeasureType is a Go int enum. -/
abbrev MeasureType : Type := Int

/-- The key set of the validMeasureTypeValues map (Weight 1, Height 4,
FatFreeMass 5, FatRatio 6, FatMassWeight 8, DiastolicBP 9, SystolicBP 10,
HeartPulse 11, Temp 12, SpO2 54, BodyTemp 71, SkinTemp 73, MuscleMass 76,
Hydration 77, BoneMass 88, PWaveVel 91, VO2Max 123, QRSInterval 135,
PRInterval 136, QTInterval 137, CorrQTInterval 138, AtrialFib 139). -/
def validMeasureTypeValues : List Int :=
  [1, 4, 5, 6, 8, 9, 10, 11, 12, 54, 71, 73, 76, 77, 88, 91, 123, 135,
   136, 137, 138, 139]

/-- MeasureType.IsValid: membership in the validMeasureTypeValues map. -/
def MeasureType.IsValid (v : MeasureType) : Bool :=
  validMeasureTypeValues.contains v

/-- AllMeasureTypes: the listed MeasureType values, in declaration
order. -/
def AllMeasureTypes : List MeasureType :=
  [1, 4, 5, 6, 8, 9, 10, 11, 12, 54, 71, 73, 76, 77, 88, 91, 123, 135,
   136, 137, 138, 139]

/-- MeasureCategory is a Go int enum (RealMeasure 1, UserObjective 2). -/
abbrev MeasureCategory : Type := Int

/-- MeasureCategory.IsValid: membership in validMeasureCategoryValues. -/
def MeasureCategory.IsValid (v : MeasureCategory) : Bool :=
  ([1, 2] : List Int).contains v

/-- ActivityField is a Go string enum. -/
abbrev ActivityField : Type := String

/-- The key set of the validActivityFieldValues map. -/
def validActivityFieldValues : List String :=
  ["steps", "distance", "elevation", "soft", "moderate", "intense",
   "active", "calories", "totalcalories", "hr_average", "hr_min",
   "hr_max", "hr_zone_0", "hr_zone_1", "hr_zone_2", "hr_zone_3"]

/-- ActivityField.IsValid: membership in validActivityFieldValues. -/
def ActivityField.IsValid (v : ActivityField) : Bool :=
  validActivityFieldValues.contains v

/-- IntradayActivityField is a Go string enum. -/
abbrev IntradayActivityField : Type := String

/-- The key set of the validIntradayActivityFieldValues map. -/
def validIntradayActivityFieldValues : List String :=
  ["steps", "elevation", "calories", "distance", "stroke", "pool_lap",
   "duration", "heart_rate", "spo2_auto"]

/-- IntradayActivityField.IsValid: membership in
validIntradayActivityFieldValues. -/
def IntradayActivityField.IsValid (v : IntradayActivityField) : Bool :=
  validIntradayActivityFieldValues.contains v

/-- WorkoutField is a Go string enum. -/
abbrev WorkoutField : Type := String

/-- The key set of the validWorkoutFieldValues map. -/
def validWorkoutFieldValues : List String :=
  ["calories", "intensity", "manual_distance", "manual_calories",
   "hr_average", "hr_min", "hr_max", "hr_zone_0", "hr_zone_1",
   "hr_zone_2", "hr_zone_3", "pause_duration", "algo_pause_duration",
   "spo2_average", "steps", "distance", "elevation", "pool_laps",
   "strokes", "pool_length"]

/-- WorkoutField.IsValid: membership in validWorkoutFieldValues. -/
def WorkoutField.IsValid (v : WorkoutField) : Bool :=
  validWorkoutFieldValues.contains v

/-- filterValidMeasureTypeValues: the range loop appending each valid
value to an accumulator, skipping invalid ones. -/
def filterValidMeasureTypeValues (values : List MeasureType) :
    List MeasureType :=
  values.foldl (fun acc v => if MeasureType.IsValid v then acc ++ [v] else acc) []

/-- filterValidActivityFieldValues: same loop for activity fields. -/
def filterValidActivityFieldValues (values : List ActivityField) :
    List ActivityField :=
  values.foldl (fun acc v => if ActivityField.IsValid v then acc ++ [v] else acc) []

/-- filterValidIntradayActivityFieldValues: same loop for intraday
activity fields. -/
def filterValidIntradayActivityFieldValues
    (values : List IntradayActivityField) : List IntradayActivityField :=
  values.foldl
    (fun acc v => if IntradayActivityField.IsValid v then acc ++ [v] else acc) []

/-- filterValidWorkoutFieldValues: same loop for workout fields. -/
def filterValidWorkoutFieldValues (values : List WorkoutField) :
    List WorkoutField :=
  values.foldl (fun acc v => if WorkoutField.IsValid v then acc ++ [v] else acc) []

/-- measureTypesToString: the decimal rendering of each measure type. -/
def measureTypesToString (measureTypes : List MeasureType) : List String :=
  measureTypes.map (fun v : Int => toString v)

/-- joinActivityFields: the fields joined with a comma. -/
def joinActivityFields (fields : List ActivityField) : String :=
  String.intercalate "," fields

/-- joinIntradayActivityFields: the fields joined with a comma. -/
def joinIntradayActivityFields (fields : List IntradayActivityField) : String :=
  String.intercalate "," fields

/-- joinWorkoutFields: the fields joined with a comma. -/
def joinWorkoutFields (fields : List WorkoutField) : String :=
  String.intercalate "," fields

/-- A Go time.Time carried as its Unix seconds (sub-second precision is
never read by the embedded code). -/
structure GoTime where
  unix : Int
deriving DecidableEq

/-- The Unix seconds of the zero Go time.Time (January 1, year 1 UTC). -/
def goZeroTimeUnix : Int := -62135596800

/-- time.Time.IsZero: the instant is the zero time. -/
def GoTime.IsZero (t : GoTime) : Bool := t.unix == goZeroTimeUnix

/-- The zero Go time.Time. -/
def GoTime.zero : GoTime := ⟨goZeroTimeUnix⟩

/-- Days-count to civil date (year, month, day), used for the 2006-01-02
rendering of a time (proleptic Gregorian, UTC). -/
def civilFromDays (z0 : Int) : Int × Int × Int :=
  let z := z0 + 719468
  let era := Int.fdiv z 146097
  let doe := z - era * 146097
  let yoe := Int.fdiv
    (doe - Int.fdiv doe 1460 + Int.fdiv doe 36524 - Int.fdiv doe 146096) 365
  let y := yoe + era * 400
  let doy := doe - (365 * yoe + Int.fdiv yoe 4 - Int.fdiv yoe 100)
  let mp := Int.fdiv (5 * doy + 2) 153
  let d := doy - Int.fdiv (153 * mp + 2) 5 + 1
  let m := mp + (if mp < 10 then 3 else -9)
  (y + (if m ≤ 2 then 1 else 0), m, d)

/-- Zero-pad a number to two digits. -/
def pad2 (n : Int) : String :=
  if n < 10 then "0" ++ toString n else toString n

/-- Zero-pad a number to four digits. -/
def pad4 (n : Int) : String :=
  if n < 10 then "000" ++ toString n
  else if n < 100 then "00" ++ toString n
  else if n < 1000 then "0" ++ toString n
  else toString n

/-- t.Format("2006-01-02"): the calendar date of the instant, rendered in
UTC. -/
def formatYMD (t : GoTime) : String :=
  let days := Int.fdiv t.unix 86400
  let ymd := civilFromDays days
  pad4 ymd.1 ++ "-" ++ pad2 ymd.2.1 ++ "-" ++ pad2 ymd.2.2

/-- MeasureGetOptions: date filters and pagination offset, with Go zero
values as defaults. -/
structure MeasureGetOptions where
  StartDate : GoTime := GoTime.zero
  EndDate : GoTime := GoTime.zero
  LastUpdate : GoTime := GoTime.zero
  Offset : Int := 0

/-- The date-filter block shared by Getmeas (with Unix-second rendering):
lastupdate wins, else a complete start/end pair, else nothing. -/
def addUnixDateOptions (form : Values) (opts : MeasureGetOptions) : Values :=
  if !(GoTime.IsZero opts.LastUpdate) then
    form.add "lastupdate" (toString opts.LastUpdate.unix)
  else if !(GoTime.IsZero opts.StartDate) && !(GoTime.IsZero opts.EndDate) then
    (form.add "startdate" (toString opts.StartDate.unix)).add
      "enddate" (toString opts.EndDate.unix)
  else form

/-- The date-filter block shared by Getactivity and Getworkouts (with
2006-01-02 rendering): lastupdate wins, else a complete start/end pair,
else nothing. -/
def addYMDDateOptions (form : Values) (opts : MeasureGetOptions) : Values :=
  if !(GoTime.IsZero opts.LastUpdate) then
    form.add "lastupdate" (toString opts.LastUpdate.unix)
  else if !(GoTime.IsZero opts.StartDate) && !(GoTime.IsZero opts.EndDate) then
    (form.add "startdateymd" (formatYMD opts.StartDate)).add
      "enddateymd" (formatYMD opts.EndDate)
  else form

/-- The pagination block: a positive offset is added. -/
def addOffsetOption (form : Values) (opts : MeasureGetOptions) : Values :=
  if opts.Offset > 0 then form.add "offset" (toString opts.Offset) else form

/-- MeasureService.Getmeas up to the POST: category validation, silent
filtering of the measure types, rejection when none remains, then the
form (action, category, meastype or meastypes, date filters, offset). -/
def Getmeas (measureTypes : List MeasureType) (category : MeasureCategory)
    (opts : MeasureGetOptions) : Except String Values :=
  if ¬ MeasureCategory.IsValid category then .error "invalid category"
  else
    let measureTypes := filterValidMeasureTypeValues measureTypes
    if measureTypes.length = 0 then .error "need at least one measure type"
    else
      let form := (Values.empty.set "action" "getmeas").set "category"
        (toString (category : Int))
      let form :=
        if measureTypes.length = 1 then
          form.add "meastype" (toString ((measureTypes.headD 0 : Int)))
        else
          form.add "meastypes"
            (String.intercalate "," (measureTypesToString measureTypes))
      .ok (addOffsetOption (addUnixDateOptions form opts) opts)

/-- MeasureService.Getactivity up to the POST: silent filtering of the
fields, rejection when none remains, then the form. -/
def Getactivity (fields : List ActivityField) (opts : MeasureGetOptions) :
    Except String Values :=
  let fields := filterValidActivityFieldValues fields
  if fields.length = 0 then .error "need at least one activity field"
  else
    let form := (Values.empty.set "action" "getactivity").set "data_fields"
      (joinActivityFields fields)
    .ok (addOffsetOption (addYMDDateOptions form opts) opts)

/-- MeasureService.Getintradayactivity up to the POST: silent filtering
of the fields, rejection when none remains, then the form (only a
complete start/end pair is added; no lastupdate, no offset). -/
def Getintradayactivity (fields : List IntradayActivityField)
    (opts : MeasureGetOptions) : Except String Values :=
  let fields := filterValidIntradayActivityFieldValues fields
  if fields.length = 0 then .error "need at least one intraday activity data field"
  else
    let form := (Values.empty.set "action" "getintradayactivity").set
      "data_fields" (joinIntradayActivityFields fields)
    let form :=
      if !(GoTime.IsZero opts.StartDate) && !(GoTime.IsZero opts.EndDate) then
        (form.add "startdate" (toString opts.StartDate.unix)).add
          "enddate" (toString opts.EndDate.unix)
      else form
    .ok form

/-- MeasureService.Getworkouts up to the POST: silent filtering of the
fields, rejection when none remains, then the form. -/
def Getworkouts (fields : List WorkoutField) (opts : MeasureGetOptions) :
    Except String Values :=
  let fields := filterValidWorkoutFieldValues fields
  if fields.length = 0 then .error "need at least one workout data field"
  else
    let form := (Values.empty.set "action" "getworkouts").set "data_fields"
      (joinWorkoutFields fields)
    .ok (addOffsetOption (addYMDDateOptions form opts) opts)

theorem Values.get_set_self (vs : Values) (k v : String) :
    (vs.set k v).get k = [v] := by
  simp [Values.get, Values.set]

theorem Values.get_set_ne (vs : Values) (k v q : String) (h : q ≠ k) :
    (vs.set k v).get q = vs.get q := by
  simp [Values.get, Values.set, h]

theorem Values.get_add_self (vs : Values) (k v : String) :
    (vs.add k v).get k = vs.get k ++ [v] := by
  simp [Values.get, Values.add]

theorem Values.get_add_ne (vs : Values) (k v q : String) (h : q ≠ k) :
    (vs.add k v).get q = vs.get q := by
  simp [Values.get, Values.add, h]

theorem Values.get_empty (k : String) : Values.empty.get k = [] := rfl

/-- Applying a list of options none of which touches key k leaves the
values under k unchanged. -/
theorem foldl_setValue_get_of_fresh (opts : List AuthCodeOption) (vs : Values)
    (k : String) (h : ∀ o ∈ opts, o.key ≠ k) :
    (opts.foldl (fun v o => o.setValue v) vs).get k = vs.get k := by
  induction opts generalizing vs with
  | nil => rfl
  | cons o rest ih =>
    have hk : o.key ≠ k := h o (List.mem_cons_self o rest)
    have hrest : ∀ o ∈ rest, AuthCodeOption.key o ≠ k :=
      fun o ho => h o (List.mem_cons_of_mem _ ho)
    rw [List.foldl_cons, ih _ hrest]
    exact Values.get_set_ne _ _ _ _ (fun hq => hk hq.symm)

/-- The append-accumulator loop of the filter helpers is List.filter. -/
theorem foldl_filter_append {α : Type} (p : α → Bool) (l acc : List α) :
    l.foldl (fun a v => if p v then a ++ [v] else a) acc = acc ++ l.filter p := by
  induction l generalizing acc with
  | nil => simp
  | cons x xs ih =>
    by_cases h : p x <;> simp [List.foldl_cons, List.filter_cons, h, ih]

/-- A boolean filter is idempotent. -/
theorem filter_idem {α : Type} (p : α → Bool) (l : List α) :
    (l.filter p).filter p = l.filter p := by
  induction l with
  | nil => rfl
  | cons x xs ih => by_cases h : p x <;> simp [List.filter_cons, h, ih]

theorem filterValidMeasureTypeValues_eq (values : List MeasureType) :
    filterValidMeasureTypeValues values =
      values.filter (fun v => MeasureType.IsValid v) := by
  simpa using foldl_filter_append (fun v => MeasureType.IsValid v) values []

theorem filterValidActivityFieldValues_eq (values : List ActivityField) :
    filterValidActivityFieldValues values =
      values.filter (fun v => ActivityField.IsValid v) := by
  simpa using foldl_filter_append (fun v => ActivityField.IsValid v) values []

theorem filterValidIntradayActivityFieldValues_eq
    (values : List IntradayActivityField) :
    filterValidIntradayActivityFieldValues values =
      values.filter (fun v => IntradayActivityField.IsValid v) := by
  simpa using
    foldl_filter_append (fun v => IntradayActivityField.IsValid v) values []

theorem filterValidWorkoutFieldValues_eq (values : List WorkoutField) :
    filterValidWorkoutFieldValues values =
      values.filter (fun v => WorkoutField.IsValid v) := by
  simpa using foldl_filter_append (fun v => WorkoutField.IsValid v) values []

theorem filterValidMeasureTypeValues_idem (values : List MeasureType) :
    filterValidMeasureTypeValues (filterValidMeasureTypeValues values) =
      filterValidMeasureTypeValues values := by
  simp [filterValidMeasureTypeValues_eq, filter_idem]

theorem filterValidActivityFieldValues_idem (values : List ActivityField) :
    filterValidActivityFieldValues (filterValidActivityFieldValues values) =
      filterValidActivityFieldValues values := by
  simp [filterValidActivityFieldValues_eq, filter_idem]

theorem filterValidIntradayActivityFieldValues_idem
    (values : List IntradayActivityField) :
    filterValidIntradayActivityFieldValues
        (filterValidIntradayActivityFieldValues values) =
      filterValidIntradayActivityFieldValues values := by
  simp [filterValidIntradayActivityFieldValues_eq, filter_idem]

theorem filterValidWorkoutFieldValues_idem (values : List WorkoutField) :
    filterValidWorkoutFieldValues (filterValidWorkoutFieldValues values) =
      filterValidWorkoutFieldValues values := by
  simp [filterValidWorkoutFieldValues_eq, filter_idem]

/-- Reading any key other than offset through the pagination block. -/
theorem get_addOffsetOption (form : Values) (opts : MeasureGetOptions)
    (k : String) (h : k ≠ "offset") :
    (addOffsetOption form opts).get k = form.get k := by
  unfold addOffsetOption
  split
  · exact Values.get_add_ne _ _ _ _ h
  · rfl

/-- With a non-zero LastUpdate the Unix date block adds only
lastupdate. -/
theorem addUnixDateOptions_lastupdate (form : Values)
    (opts : MeasureGetOptions) (hlu : GoTime.IsZero opts.LastUpdate = false) :
    addUnixDateOptions form opts =
      form.add "lastupdate" (toString opts.LastUpdate.unix) := by
  simp [addUnixDateOptions, hlu]

/-- With a non-zero LastUpdate the YMD date block adds only
lastupdate. -/
theorem addYMDDateOptions_lastupdate (form : Values)
    (opts : MeasureGetOptions) (hlu : GoTime.IsZero opts.LastUpdate = false) :
    addYMDDateOptions form opts =
      form.add "lastupdate" (toString opts.LastUpdate.unix) := by
  simp [addYMDDateOptions, hlu]

/-- Reading any key other than meastype and meastypes through the
measure-type block of Getmeas. -/
theorem get_meastypeBranch (form : Values) (mts : List MeasureType)
    (k : String) (h1 : k ≠ "meastype") (h2 : k ≠ "meastypes") :
    (if mts.length = 1 then
        form.add "meastype" (toString ((mts.headD 0 : Int)))
      else
        form.add "meastypes"
          (String.intercalate "," (measureTypesToString mts))).get k
      = form.get k := by
  split
  · exact Values.get_add_ne _ _ _ _ h1
  · exact Values.get_add_ne _ _ _ _ h2

/-- A defined spec-side integer reading is computed by the embedded
mapstructure field decode. -/
theorem specIntField_ok (fields : JsonMap) (key : String) (dflt n : Int) :
    specIntField fields key dflt = some n →
      decodeIntField fields key dflt = .ok n := by
  unfold specIntField decodeIntField
  cases hl : lookupField fields key with
  | none => intro h; simp_all
  | some j => cases j <;> intro h <;> simp_all

/-- A defined spec-side boolean reading is computed by the embedded
mapstructure field decode. -/
theorem specBoolField_ok (fields : JsonMap) (key : String) (dflt b : Bool) :
    specBoolField fields key dflt = some b →
      decodeBoolField fields key dflt = .ok b := by
  unfold specBoolField decodeBoolField
  cases hl : lookupField fields key with
  | none => intro h; simp_all
  | some j => cases j <;> intro h <;> simp_all

/-- The embedded decode of the inner body struct agrees with the
spec-side readings whenever those are defined. -/
theorem decodeApiBody_of_spec (bf : JsonMap) (m : Bool) (o : Int)
    (hm : specBoolField bf "more" false = some m)
    (ho : specIntField bf "offset" 0 = some o) :
    decodeApiBody bf = .ok { more := m, offset := o } := by
  have h1 := specBoolField_ok _ _ _ _ hm
  have h2 := specIntField_ok _ _ _ _ ho
  unfold decodeApiBody
  rw [h1]
  simp [Bind.bind, Except.bind, h2]

/-- The embedded decode of the apiResponse metadata shape agrees with the
spec-side readings whenever those are defined. -/
theorem decodeApiResponse_of_spec (fields : JsonMap) (s : Int) (m : Bool)
    (o : Int) (hs : specStatus fields = some s) :
    specMore fields = some m → specOffset fields = some o →
      decodeApiResponse fields =
        .ok { status := s, body := { more := m, offset := o } } := by
  have hs2 : specIntField fields "status" 0 = some s := hs
  have h1 : decodeIntField fields "status" 0 = .ok s :=
    specIntField_ok _ _ _ _ hs2
  unfold specMore specOffset decodeApiResponse
  rw [h1]
  cases hb : lookupField fields "body" with
  | none =>
    intro hm ho
    obtain rfl : false = m := Option.some.inj hm
    obtain rfl : (0 : Int) = o := Option.some.inj ho
    simp [Bind.bind, Except.bind]
  | some j =>
    cases j with
    | obj bf =>
      intro hm ho
      have hbody := decodeApiBody_of_spec bf m o hm ho
      simp [Bind.bind, Except.bind, hbody]
    | null => exact fun hm _ => Option.noConfusion hm
    | bool b => exact fun hm _ => Option.noConfusion hm
    | num n => exact fun hm _ => Option.noConfusion hm
    | str sv => exact fun hm _ => Option.noConfusion hm
    | arr elems => exact fun hm _ => Option.noConfusion hm

/-- C3: For every well-formed JSON envelope body whose metadata fields
read back (present values taken exactly, absent fields defaulting to
0/false/0) and whose target decode succeeds, Client.Do decodes the one
generic map into both shapes and returns a Response carrying exactly
those metadata values together with the decoded target, with no error
regardless of whether the status is zero or non-zero. -/
theorem c3_do_envelope_metadata {α : Type} (fields : JsonMap)
    (td : JsonMap → Except String α) (t : α) (s : Int) (m : Bool) (o : Int)
    (ht : td fields = .ok t) (hs : specStatus fields = some s)
    (hm : specMore fields = some m) (ho : specOffset fields = some o) :
    ClientDo (.parsed fields) td =
      .ok ({ status := s, more := m, offset := o }, t) := by
  have h := decodeApiResponse_of_spec fields s m o hs hm ho
  simp [ClientDo, doDecodePhase, h, ht, Bind.bind, Except.bind]

/-- C3 witness: a concrete envelope with a non-zero status, more=true and
offset=7 decodes with exactly that metadata and no error. -/
theorem c3_do_envelope_metadata_witness :
    ClientDo (.parsed [("status", Json.num 503),
        ("body", Json.obj [("more", Json.bool true), ("offset", Json.num 7)])])
      (fun _ => Except.ok ()) =
      .ok ({ status := 503, more := true, offset := 7 }, ()) :=
  c3_do_envelope_metadata _ _ () 503 true 7 rfl rfl rfl rfl

/-- C4: An empty response body is not a decode error: Client.Do treats it
as the empty generic map, so the metadata defaults and the target decode
sees an empty object, while malformed JSON, a metadata shape mismatch or
a target shape mismatch are each returned as errors. -/
theorem c4_empty_body_not_error {α : Type} (td : JsonMap → Except String α) :
    (∀ t, td [] = .ok t →
        ClientDo .empty td = .ok ({ status := 0, more := false, offset := 0 }, t))
    ∧ (∀ msg, ClientDo (.malformed msg) td = .error msg)
    ∧ (∀ fields e, decodeApiResponse fields = .error e →
        ClientDo (.parsed fields) td = .error e)
    ∧ (∀ fields a e, decodeApiResponse fields = .ok a → td fields = .error e →
        ClientDo (.parsed fields) td = .error e) := by
  refine ⟨?_, fun _ => rfl, ?_, ?_⟩
  · intro t ht
    have h : decodeApiResponse [] = .ok {} := rfl
    simp [ClientDo, doDecodePhase, h, ht, Bind.bind, Except.bind]
  · intro fields e he
    simp [ClientDo, doDecodePhase, he, Bind.bind, Except.bind]
  · intro fields a e ha he
    simp [ClientDo, doDecodePhase, ha, he, Bind.bind, Except.bind]

/-- C4 witness: the empty body yields the default metadata and an
unpopulated target with no error; a malformed body yields an error. -/
theorem c4_empty_body_not_error_witness :
    ClientDo .empty (fun fields => Except.ok fields) =
      .ok ({ status := 0, more := false, offset := 0 }, ([] : JsonMap))
    ∧ ClientDo (.malformed "invalid character") (fun fields => Except.ok fields) =
      .error "invalid character" :=
  ⟨(c4_empty_body_not_error _).1 [] rfl,
   (c4_empty_body_not_error _).2.1 "invalid character"⟩

/-- C5: A BaseURL whose path lacks the trailing slash makes NewRequest
(and hence PostForm, for every transport) return the configuration error
before any request is issued, while the valid base
https://api.example.com/ resolves the relative path v2/resource to
https://api.example.com/v2/resource. -/
theorem c5_base_url_trailing_slash :
    (∀ (c : Client) (urlStr : String), endsWithSlash c.BaseURL.path = false →
        c.NewRequest urlStr = .error ("BaseURL must have a trailing slash, but \""
            ++ c.BaseURL.render ++ "\" does not")
        ∧ (∀ (α : Type) (transport : URL → BodyParse)
              (td : JsonMap → Except String α),
            c.PostForm urlStr transport td =
              .error ("BaseURL must have a trailing slash, but \""
                ++ c.BaseURL.render ++ "\" does not")))
    ∧ Client.NewRequest ⟨⟨"https", "api.example.com", "/"⟩, "go-withings"⟩
        "v2/resource" = .ok ⟨"https", "api.example.com", "/v2/resource"⟩ := by
  constructor
  · intro c urlStr h
    have hn : c.NewRequest urlStr = .error ("BaseURL must have a trailing slash, but \""
        ++ c.BaseURL.render ++ "\" does not") := by
      simp [Client.NewRequest, h]
    exact ⟨hn, fun α transport td => by simp [Client.PostForm, hn]⟩
  · rfl

/-- C5 witness: a base URL without the trailing slash is rejected by
NewRequest with the configuration error. -/
theorem c5_base_url_trailing_slash_witness :
    Client.NewRequest ⟨⟨"https", "api.example.com", ""⟩, "go-withings"⟩
        "v2/resource"
      = .error ("BaseURL must have a trailing slash, but \""
          ++ URL.render ⟨"https", "api.example.com", ""⟩ ++ "\" does not") :=
  (c5_base_url_trailing_slash.1 ⟨⟨"https", "api.example.com", ""⟩, "go-withings"⟩
    "v2/resource" rfl).1

/-- C6: When the transport call fails, BareDo returns the cancellation
error of the request context whenever the context has been cancelled, and
propagates the transport error untouched otherwise. -/
theorem c6_cancellation_error (ctx : Ctx) (e : String) :
    (ctx.done = true → BareDo (some ctx) (.failure e) = .error ctx.err)
    ∧ (ctx.done = false → BareDo (some ctx) (.failure e) = .error e) := by
  constructor <;> intro h <;> simp [BareDo, h]

/-- C6 witness: a failure under a cancelled context surfaces the context
error; the same failure under a live context surfaces the raw error. -/
theorem c6_cancellation_error_witness :
    BareDo (some ⟨true, "context canceled"⟩) (.failure "connection reset")
      = .error "context canceled"
    ∧ BareDo (some ⟨false, "context canceled"⟩) (.failure "connection reset")
      = .error "connection reset" :=
  ⟨(c6_cancellation_error ⟨true, "context canceled"⟩ "connection reset").1 rfl,
   (c6_cancellation_error ⟨false, "context canceled"⟩ "connection reset").2 rfl⟩

/-- C1: For every configuration and authorization code, the Grant Request
form built by Exchange contains action=requesttoken,
grant_type=authorization_code and code=the given code, contains
redirect_uri exactly when the configured RedirectURL is non-empty (and
then with that value), and never contains grant_type=refresh_token. -/
theorem c1_exchange_form (c : Config) (code : String) :
    (c.ExchangeValues code).get "action" = ["requesttoken"]
    ∧ (c.ExchangeValues code).get "grant_type" = ["authorization_code"]
    ∧ (c.ExchangeValues code).get "code" = [code]
    ∧ (c.RedirectURL ≠ "" → (c.ExchangeValues code).get "redirect_uri" = [c.RedirectURL])
    ∧ (c.RedirectURL = "" → (c.ExchangeValues code).get "redirect_uri" = [])
    ∧ "refresh_token" ∉ (c.ExchangeValues code).get "grant_type" := by
  unfold Config.ExchangeValues
  by_cases h : c.RedirectURL = "" <;>
    simp [h, Values.get, Values.set, Values.empty]

/-- C1 witness at a concrete configuration and code. -/
theorem c1_exchange_form_witness :
    (({ RedirectURL := "https://example.com/cb" } : Config).ExchangeValues "authcode").get
        "redirect_uri" = ["https://example.com/cb"]
    ∧ (({} : Config).ExchangeValues "authcode").get "redirect_uri" = [] := by
  refine ⟨(c1_exchange_form { RedirectURL := "https://example.com/cb" } "authcode").2.2.2.1 ?_,
    (c1_exchange_form {} "authcode").2.2.2.2.1 ?_⟩ <;> decide

/-- C2: For every configuration with a non-empty scope list, the consent
URL built by AuthCodeURL carries scope as the comma-joined scope values in
their original order, never space- or plus-joined, and extra options (such
as the demo-mode flag) are added without changing the other parameters. -/
theorem c2_scope_comma_joined (c : Config) (state : String)
    (extra : List AuthCodeOption) (hs : c.Scopes ≠ [])
    (hfresh : ∀ o ∈ extra, o.key ≠ "scope") :
    (c.AuthCodeURLValues state extra).get "scope" = [String.intercalate "," c.Scopes]
    ∧ (∀ k, (∀ o ∈ extra, o.key ≠ k) →
        (c.AuthCodeURLValues state extra).get k = (c.AuthCodeURLValues state []).get k)
    ∧ (c.AuthCodeURLValues state (extra ++ [ModeDemo])).get "mode" = ["demo"]
    ∧ (c.Scopes = ["a", "b", "c"] →
        (c.AuthCodeURLValues state extra).get "scope" = ["a,b,c"]
        ∧ (c.AuthCodeURLValues state extra).get "scope" ≠ ["a b c"]
        ∧ (c.AuthCodeURLValues state extra).get "scope" ≠ ["a+b+c"]) := by
  have hlen : c.Scopes.length > 0 := List.length_pos.mpr hs
  have hbase :
      ∀ os, c.AuthCodeURLValues state os =
        os.foldl (fun v o => o.setValue v)
          ((oauth2AuthCodeURLValuesBase c state).set "scope"
            (String.intercalate "," c.Scopes)) := by
    intro os
    simp only [Config.AuthCodeURLValues, oauth2AuthCodeURLValues,
      oauth2AuthCodeURLValuesBase, if_pos hlen, List.foldl_cons]
    rfl
  have hscope : (c.AuthCodeURLValues state extra).get "scope" =
      [String.intercalate "," c.Scopes] := by
    rw [hbase, foldl_setValue_get_of_fresh _ _ _ hfresh, Values.get_set_self]
  refine ⟨hscope, ?_, ?_, ?_⟩
  · intro k hk
    rw [hbase, hbase, foldl_setValue_get_of_fresh _ _ _ hk, List.foldl_nil]
  · rw [hbase, List.foldl_append, List.foldl_cons, List.foldl_nil]
    exact Values.get_set_self _ _ _
  · intro habc
    rw [hscope, habc]
    refine ⟨rfl, ?_, ?_⟩ <;> decide

/-- C2 witness at a concrete configuration, state and demo-mode option. -/
theorem c2_scope_comma_joined_witness :
    (({ ClientID := "id", Scopes := ["a", "b", "c"] } : Config).AuthCodeURLValues
        "st" [ModeDemo]).get "scope" = ["a,b,c"] := by
  have h := (c2_scope_comma_joined { ClientID := "id", Scopes := ["a", "b", "c"] }
    "st" [ModeDemo] (by decide) (by decide)).2.2.2 rfl
  exact h.1

/-- C7: Each service call silently drops invalid enum values (calling it
on a list is the same as calling it on the valid sublist), errors exactly
when no valid value remains, and proceeds otherwise. -/
theorem c7_invalid_enum_values_filtered :
    (∀ (mts : List MeasureType) (category : MeasureCategory)
        (opts : MeasureGetOptions), MeasureCategory.IsValid category = true →
        Getmeas mts category opts =
          Getmeas (filterValidMeasureTypeValues mts) category opts
        ∧ (filterValidMeasureTypeValues mts = [] →
            Getmeas mts category opts = .error "need at least one measure type")
        ∧ (filterValidMeasureTypeValues mts ≠ [] →
            ∃ form, Getmeas mts category opts = .ok form))
    ∧ (∀ (fs : List ActivityField) (opts : MeasureGetOptions),
        Getactivity fs opts =
          Getactivity (filterValidActivityFieldValues fs) opts
        ∧ (filterValidActivityFieldValues fs = [] →
            Getactivity fs opts = .error "need at least one activity field")
        ∧ (filterValidActivityFieldValues fs ≠ [] →
            ∃ form, Getactivity fs opts = .ok form))
    ∧ (∀ (fs : List IntradayActivityField) (opts : MeasureGetOptions),
        Getintradayactivity fs opts =
          Getintradayactivity (filterValidIntradayActivityFieldValues fs) opts
        ∧ (filterValidIntradayActivityFieldValues fs = [] →
            Getintradayactivity fs opts =
              .error "need at least one intraday activity data field")
        ∧ (filterValidIntradayActivityFieldValues fs ≠ [] →
            ∃ form, Getintradayactivity fs opts = .ok form))
    ∧ (∀ (fs : List WorkoutField) (opts : MeasureGetOptions),
        Getworkouts fs opts =
          Getworkouts (filterValidWorkoutFieldValues fs) opts
        ∧ (filterValidWorkoutFieldValues fs = [] →
            Getworkouts fs opts = .error "need at least one workout data field")
        ∧ (filterValidWorkoutFieldValues fs ≠ [] →
            ∃ form, Getworkouts fs opts = .ok form)) := by
  refine ⟨?_, ?_, ?_, ?_⟩
  · intro mts category opts hcat
    refine ⟨?_, ?_, ?_⟩
    · simp only [Getmeas, filterValidMeasureTypeValues_idem]
    · intro h; simp [Getmeas, hcat, h]
    · intro h
      simp only [Getmeas, hcat, not_true_eq_false, Bool.true_eq_false,
        if_false, List.length_eq_zero]
      simp only [h, if_false]
      exact ⟨_, rfl⟩
  · intro fs opts
    refine ⟨?_, ?_, ?_⟩
    · simp only [Getactivity, filterValidActivityFieldValues_idem]
    · intro h; simp [Getactivity, h]
    · intro h
      simp only [Getactivity, List.length_eq_zero]
      simp only [h, if_false]
      exact ⟨_, rfl⟩
  · intro fs opts
    refine ⟨?_, ?_, ?_⟩
    · simp only [Getintradayactivity, filterValidIntradayActivityFieldValues_idem]
    · intro h; simp [Getintradayactivity, h]
    · intro h
      simp only [Getintradayactivity, List.length_eq_zero]
      simp only [h, if_false]
      exact ⟨_, rfl⟩
  · intro fs opts
    refine ⟨?_, ?_, ?_⟩
    · simp only [Getworkouts, filterValidWorkoutFieldValues_idem]
    · intro h; simp [Getworkouts, h]
    · intro h
      simp only [Getworkouts, List.length_eq_zero]
      simp only [h, if_false]
      exact ⟨_, rfl⟩

/-- C7 witness: a mixed valid/invalid measure-type list behaves as its
valid sublist and proceeds; an all-invalid workout list is rejected. -/
theorem c7_invalid_enum_values_filtered_witness :
    Getmeas [1, 2, 4] 1 {} = Getmeas (filterValidMeasureTypeValues [1, 2, 4]) 1 {}
    ∧ (∃ form, Getmeas [1, 2, 4] 1 {} = .ok form)
    ∧ Getactivity ["steps", "bogus"] {} =
        Getactivity (filterValidActivityFieldValues ["steps", "bogus"]) {}
    ∧ Getworkouts ["bogus"] {} = .error "need at least one workout data field" :=
  ⟨(c7_invalid_enum_values_filtered.1 [1, 2, 4] 1 {} (by decide)).1,
   (c7_invalid_enum_values_filtered.1 [1, 2, 4] 1 {} (by decide)).2.2 (by decide),
   (c7_invalid_enum_values_filtered.2.1 ["steps", "bogus"] {}).1,
   (c7_invalid_enum_values_filtered.2.2.2 ["bogus"] {}).2.1 (by decide)⟩

/-- C9: When both LastUpdate and the StartDate/EndDate pair are non-zero,
Getmeas, Getactivity and Getworkouts send only the lastupdate parameter
and silently omit the start/end date parameters, and the conflicting
combination is never rejected with an error. -/
theorem c9_lastupdate_wins (opts : MeasureGetOptions)
    (hlu : GoTime.IsZero opts.LastUpdate = false)
    (hsd : GoTime.IsZero opts.StartDate = false)
    (hed : GoTime.IsZero opts.EndDate = false) :
    (∀ (mts : List MeasureType) (category : MeasureCategory) (form : Values),
        Getmeas mts category opts = .ok form →
        form.get "lastupdate" = [toString opts.LastUpdate.unix]
        ∧ form.get "startdate" = [] ∧ form.get "enddate" = [])
    ∧ (∀ (fs : List ActivityField) (form : Values),
        Getactivity fs opts = .ok form →
        form.get "lastupdate" = [toString opts.LastUpdate.unix]
        ∧ form.get "startdateymd" = [] ∧ form.get "enddateymd" = [])
    ∧ (∀ (fs : List WorkoutField) (form : Values),
        Getworkouts fs opts = .ok form →
        form.get "lastupdate" = [toString opts.LastUpdate.unix]
        ∧ form.get "startdateymd" = [] ∧ form.get "enddateymd" = [])
    ∧ (∀ (mts : List MeasureType) (category : MeasureCategory),
        MeasureCategory.IsValid category = true →
        filterValidMeasureTypeValues mts ≠ [] →
        ∃ form, Getmeas mts category opts = .ok form) := by
  refine ⟨?_, ?_, ?_, ?_⟩
  · intro mts category form hok
    by_cases hcat : MeasureCategory.IsValid category = true
    · by_cases hlen : (filterValidMeasureTypeValues mts).length = 0
      · simp [Getmeas, hcat, hlen] at hok
      · simp only [Getmeas, hcat, hlen, not_true_eq_false, Bool.true_eq_false,
          if_false, Except.ok.injEq] at hok
        subst hok
        rw [addUnixDateOptions_lastupdate _ _ hlu]
        refine ⟨?_, ?_, ?_⟩ <;>
          rw [get_addOffsetOption _ _ _ (by decide)] <;>
          [rw [Values.get_add_self];
           rw [Values.get_add_ne _ _ _ _ (by decide)];
           rw [Values.get_add_ne _ _ _ _ (by decide)]] <;>
          rw [get_meastypeBranch _ _ _ (by decide) (by decide)] <;>
          simp [Values.get, Values.set, Values.empty]
    · simp [Getmeas, hcat] at hok
  · intro fs form hok
    by_cases hlen : (filterValidActivityFieldValues fs).length = 0
    · simp [Getactivity, hlen] at hok
    · simp only [Getactivity, hlen, if_false, Except.ok.injEq] at hok
      subst hok
      rw [addYMDDateOptions_lastupdate _ _ hlu]
      refine ⟨?_, ?_, ?_⟩ <;>
        rw [get_addOffsetOption _ _ _ (by decide)] <;>
        [rw [Values.get_add_self];
         rw [Values.get_add_ne _ _ _ _ (by decide)];
         rw [Values.get_add_ne _ _ _ _ (by decide)]] <;>
        simp [Values.get, Values.set, Values.empty]
  · intro fs form hok
    by_cases hlen : (filterValidWorkoutFieldValues fs).length = 0
    · simp [Getworkouts, hlen] at hok
    · simp only [Getworkouts, hlen, if_false, Except.ok.injEq] at hok
      subst hok
      rw [addYMDDateOptions_lastupdate _ _ hlu]
      refine ⟨?_, ?_, ?_⟩ <;>
        rw [get_addOffsetOption _ _ _ (by decide)] <;>
        [rw [Values.get_add_self];
         rw [Values.get_add_ne _ _ _ _ (by decide)];
         rw [Values.get_add_ne _ _ _ _ (by decide)]] <;>
        simp [Values.get, Values.set, Values.empty]
  · intro mts category hcat hne
    simp only [Getmeas, hcat, not_true_eq_false, Bool.true_eq_false, if_false,
      List.length_eq_zero]
    simp only [hne, if_false]
    exact ⟨_, rfl⟩

/-- C9 witness: at concrete conflicting options only lastupdate is sent
and the call succeeds. -/
theorem c9_lastupdate_wins_witness :
    ∃ form,
      Getmeas [1] 1
          { LastUpdate := ⟨1700000000⟩, StartDate := ⟨1600000000⟩,
            EndDate := ⟨1600086400⟩ } = .ok form
      ∧ form.get "lastupdate" = ["1700000000"]
      ∧ form.get "startdate" = [] ∧ form.get "enddate" = [] := by
  obtain ⟨form, hform⟩ :=
    (c9_lastupdate_wins
      { LastUpdate := ⟨1700000000⟩, StartDate := ⟨1600000000⟩,
        EndDate := ⟨1600086400⟩ } (by decide) (by decide) (by decide)).2.2.2
      [1] 1 (by decide) (by decide)
  have h :=
    (c9_lastupdate_wins
      { LastUpdate := ⟨1700000000⟩, StartDate := ⟨1600000000⟩,
        EndDate := ⟨1600086400⟩ } (by decide) (by decide) (by decide)).1
      [1] 1 form hform
  refine ⟨form, hform, ?_, h.2.1, h.2.2⟩
  rw [h.1]
  rfl

/-- C10: filterValidMeasureTypeValues is exactly the IsValid filter of
its input in the original order, every element of AllMeasureTypes is
valid, the filter leaves AllMeasureTypes unchanged, and the filter is
idempotent. -/
theorem c10_filter_valid_measure_types :
    (∀ values : List MeasureType,
        filterValidMeasureTypeValues values =
          values.filter (fun v => MeasureType.IsValid v))
    ∧ AllMeasureTypes.all (fun v => MeasureType.IsValid v) = true
    ∧ filterValidMeasureTypeValues AllMeasureTypes = AllMeasureTypes
    ∧ (∀ values : List MeasureType,
        filterValidMeasureTypeValues (filterValidMeasureTypeValues values) =
          filterValidMeasureTypeValues values) :=
  ⟨filterValidMeasureTypeValues_eq, by decide, by decide,
   filterValidMeasureTypeValues_idem⟩

end GoWithings
